import Mathlib

/-!
Verification of the event-calendar occurrence engine.

Datetimes are modelled as minutes since an epoch midnight that falls on a
Monday; calendar dates are day indices, so `date.weekday()` is `d % 7` with
Monday = 0, matching Python's convention.  All definitions follow the Python
sources (models.py, managers.py, services.py, views.py) at this granularity.
-/

namespace EventCalendar

def minutesPerDay : Nat := 1440

def minutesPerWeek : Nat := 10080

/-- Python `datetime.date()`: the day index of an instant. -/
def dateOf (dt : Nat) : Nat := dt / minutesPerDay

/-- Python `date.weekday()`: Monday = 0 because the epoch day is a Monday. -/
def weekdayOfDate (d : Nat) : Nat := d % 7

/-- Python `datetime.combine(d, t)` for a time of day `t` in minutes. -/
def combine (d t : Nat) : Nat := d * minutesPerDay + t

inductive OccStatus
| scheduled
| cancelled
| completed
deriving DecidableEq, Repr

/-- SessionOccurrence row (materialized model; fields as used throughout
managers.py and services.py). -/
structure SessionOccurrence where
  recurrence_pattern : Option Nat
  title : String
  description : String
  start_datetime : Nat
  duration_minutes : Int
  status : OccStatus
  is_exception : Bool
deriving DecidableEq, Repr

inductive SvcError
| invalidRange
| nonPositiveDuration
| invalidWeekday
| invalidEndDate
| alreadyCancelled
| alreadyCompleted
| cancelledCannotComplete
deriving DecidableEq, Repr

/-- `SessionOccurrenceQuerySet.in_range` (managers.py): the filter is
`start_datetime__gte=start, start_datetime__lte=end`, both bounds inclusive. -/
def in_range (occs : List SessionOccurrence) (s e : Nat) : List SessionOccurrence :=
  occs.filter (fun o => decide (s ≤ o.start_datetime) && decide (o.start_datetime ≤ e))

def filterStatus (occs : List SessionOccurrence) (st : Option OccStatus) :
    List SessionOccurrence :=
  match st with
  | some s => occs.filter (fun o => decide (o.status = s))
  | none => occs

/-- `OccurrenceService.get_occurrences_in_range` (services.py). -/
def get_occurrences_in_range (occs : List SessionOccurrence) (s e : Nat)
    (st : Option OccStatus) : Except SvcError (List SessionOccurrence) :=
  if e ≤ s then .error .invalidRange
  else .ok (filterStatus (in_range occs s e) st)

/-- DTO `OccurrenceUpdateData` (services.py). -/
structure OccurrenceUpdateData where
  title : Option String := none
  description : Option String := none
  start_datetime : Option Nat := none
  duration_minutes : Option Int := none
deriving Repr

def durationInvalid (d : Option Int) : Bool :=
  match d with
  | some v => decide (v ≤ 0)
  | none => false

/-- `OccurrenceService.create_one_time` (services.py). -/
def create_one_time (title : String) (start_dt : Nat) (duration : Int)
    (description : String) : Except SvcError SessionOccurrence :=
  if duration ≤ 0 then .error .nonPositiveDuration
  else .ok
    { recurrence_pattern := none
      title := title
      description := description
      start_datetime := start_dt
      duration_minutes := duration
      status := .scheduled
      is_exception := false }

/-- `OccurrenceService._update_occurrence_datetime`: sets the new datetime and
marks the row an exception only when it belongs to a pattern. -/
def applyDatetimeUpdate (o : SessionOccurrence) (dt : Option Nat) : SessionOccurrence :=
  match dt with
  | some v =>
    { o with
      start_datetime := v
      is_exception := if o.recurrence_pattern.isSome then true else o.is_exception }
  | none => o

/-- `OccurrenceService.update_occurrence` (services.py). -/
def update_occurrence (o : SessionOccurrence) (u : OccurrenceUpdateData) :
    Except SvcError SessionOccurrence :=
  if durationInvalid u.duration_minutes then .error .nonPositiveDuration
  else
    let o1 := applyDatetimeUpdate o u.start_datetime
    .ok
      { o1 with
        title := u.title.getD o1.title
        description := u.description.getD o1.description
        duration_minutes := u.duration_minutes.getD o1.duration_minutes }

/-- `OccurrenceService.cancel_occurrence` (services.py). -/
def cancel_occurrence (o : SessionOccurrence) : Except SvcError SessionOccurrence :=
  if o.status = OccStatus.cancelled then .error .alreadyCancelled
  else .ok
    { o with
      status := OccStatus.cancelled
      is_exception := if o.recurrence_pattern.isSome then true else o.is_exception }

/-- `OccurrenceService.complete_occurrence` (services.py). -/
def complete_occurrence (o : SessionOccurrence) : Except SvcError SessionOccurrence :=
  if o.status = OccStatus.completed then .error .alreadyCompleted
  else if o.status = OccStatus.cancelled then .error .cancelledCannotComplete
  else .ok { o with status := OccStatus.completed }

inductive SessionType
| one_time
| recurring
deriving DecidableEq, Repr

/-- SessionException row (models.py, exception-overlay model). -/
structure SessionExc where
  exception_date : Nat
  is_cancelled : Bool
  modified_datetime : Option Nat
deriving DecidableEq, Repr

/-- Session row (models.py, exception-overlay model), carrying its exception
set (`self.exceptions`). -/
structure Session where
  id : Nat
  title : String
  description : String
  session_type : SessionType
  start_datetime : Nat
  duration_minutes : Nat
  recurrence_day : Option Nat
  exceptions : List SessionExc
deriving DecidableEq, Repr

/-- `self.exceptions.filter(exception_date=d).first()`. -/
def findExc (sess : Session) (d : Nat) : Option SessionExc :=
  sess.exceptions.find? (fun ex => decide (ex.exception_date = d))

/-- The occurrence dict built by `Session.get_occurrences` (models.py). -/
structure OccurrenceData where
  session_id : Nat
  occurrence_date : Nat
  datetime : Option Nat
  title : String
  description : String
  duration_minutes : Nat
  is_modified : Bool
  is_base_session : Bool
deriving DecidableEq, Repr

/-- The body of the recurring loop in `Session.get_occurrences` for one
candidate instant `c`: skip when the date's exception is cancelled, otherwise
emit the dict with the exception overlay applied. -/
def emitRecurring (sess : Session) (c : Nat) : Option OccurrenceData :=
  match findExc sess (dateOf c) with
  | some ex =>
      if ex.is_cancelled then none
      else some
        { session_id := sess.id
          occurrence_date := dateOf c
          datetime := ex.modified_datetime
          title := sess.title
          description := sess.description
          duration_minutes := sess.duration_minutes
          is_modified := true
          is_base_session := false }
  | none =>
      some
        { session_id := sess.id
          occurrence_date := dateOf c
          datetime := some c
          title := sess.title
          description := sess.description
          duration_minutes := sess.duration_minutes
          is_modified := false
          is_base_session := false }

/-- `while current <= end_date` loop of `Session.get_occurrences`. -/
def occurrencesLoop (sess : Session) (e : Nat) (current : Nat) : List OccurrenceData :=
  if _h : current ≤ e then
    (match emitRecurring sess current with
     | some o => [o]
     | none => []) ++ occurrencesLoop sess e (current + minutesPerWeek)
  else []
termination_by e + 1 - current
decreasing_by simp [minutesPerWeek]; omega

/-- `while current < start_date: current += timedelta(weeks=1)` fast-forward
tail of `Session.get_occurrences`. -/
def advanceToStart (s : Nat) (c : Nat) : Nat :=
  if c < s then advanceToStart s (c + minutesPerWeek) else c
termination_by s - c
decreasing_by simp [minutesPerWeek]; omega

/-- The value of `current` after the fast-forward block of
`Session.get_occurrences` (weeks_diff jump, then the catch-up loop). -/
def initialCurrent (sess : Session) (s : Nat) : Nat :=
  if sess.start_datetime < s then
    let days_diff := (s - sess.start_datetime) / minutesPerDay
    let weeks_diff := days_diff / 7
    advanceToStart s (sess.start_datetime + weeks_diff * minutesPerWeek)
  else sess.start_datetime

/-- `Session.get_occurrences` (models.py). -/
def get_occurrences (sess : Session) (s e : Nat) : List OccurrenceData :=
  match sess.session_type with
  | .one_time =>
      if s ≤ sess.start_datetime ∧ sess.start_datetime ≤ e then
        match findExc sess (dateOf sess.start_datetime) with
        | some ex =>
            if ex.is_cancelled then []
            else
              [{ session_id := sess.id
                 occurrence_date := dateOf sess.start_datetime
                 datetime := ex.modified_datetime
                 title := sess.title
                 description := sess.description
                 duration_minutes := sess.duration_minutes
                 is_modified := !ex.is_cancelled
                 is_base_session := true }]
        | none =>
            [{ session_id := sess.id
               occurrence_date := dateOf sess.start_datetime
               datetime := some sess.start_datetime
               title := sess.title
               description := sess.description
               duration_minutes := sess.duration_minutes
               is_modified := false
               is_base_session := true }]
      else []
  | .recurring => occurrencesLoop sess e (initialCurrent sess s)

/-- RecurrencePattern row (materialized model; fields as used throughout
services.py, managers.py and tests.py). -/
structure RecurrencePattern where
  id : Nat
  title : String
  description : String
  weekday : Int
  time : Nat
  duration_minutes : Int
  start_date : Nat
  end_date : Option Nat
  is_active : Bool
deriving DecidableEq, Repr

def DAYS_PER_MONTH : Nat := 30

/-- `OccurrenceGenerationService._get_end_generation_date`; `today` stands for
`timezone.now().date()`. -/
def end_generation_date (p : RecurrencePattern) (months_ahead today : Nat) : Nat :=
  let egd := today + DAYS_PER_MONTH * months_ahead
  match p.end_date with
  | some ed => if ed < egd then ed else egd
  | none => egd

/-- The day-by-day scan of `_calculate_occurrence_dates`, keeping the dates
whose weekday matches the pattern's. -/
def calcDatesLoop (w : Int) (endD : Nat) (cur : Nat) : List Nat :=
  if _h : cur ≤ endD then
    (if ((weekdayOfDate cur : Int) = w) then [cur] else []) ++ calcDatesLoop w endD (cur + 1)
  else []
termination_by endD + 1 - cur

/-- `OccurrenceGenerationService._calculate_occurrence_dates`. -/
def calculate_occurrence_dates (p : RecurrencePattern) (months_ahead today : Nat) :
    List Nat :=
  calcDatesLoop p.weekday (end_generation_date p months_ahead today) p.start_date

/-- The existence filter of `_should_create_occurrence`: same pattern and the
exact combined start_datetime. -/
def occKey (p : RecurrencePattern) (dt : Nat) (o : SessionOccurrence) : Bool :=
  decide (o.recurrence_pattern = some p.id) && decide (o.start_datetime = dt)

/-- `OccurrenceGenerationService._should_create_occurrence` against database
state `db`. -/
def should_create_occurrence (db : List SessionOccurrence) (p : RecurrencePattern)
    (d : Nat) : Bool :=
  !(db.any (occKey p (combine d p.time)))

/-- The SessionOccurrence built by `_create_occurrence_objects` for one date. -/
def occFromPattern (p : RecurrencePattern) (d : Nat) : SessionOccurrence :=
  { recurrence_pattern := some p.id
    title := p.title
    description := p.description
    start_datetime := combine d p.time
    duration_minutes := p.duration_minutes
    status := .scheduled
    is_exception := false }

/-- `OccurrenceGenerationService.generate_for_pattern`: returns the list of
created occurrences; the database becomes `db ++ result` (bulk_create). -/
def generate_for_pattern (db : List SessionOccurrence) (p : RecurrencePattern)
    (months_ahead today : Nat) : List SessionOccurrence :=
  if p.is_active then
    ((calculate_occurrence_dates p months_ahead today).filter
      (should_create_occurrence db p)).map (occFromPattern p)
  else []

/-- DTO `PatternUpdateData` (services.py). -/
structure PatternUpdateData where
  title : Option String := none
  description : Option String := none
  time_of_day : Option Nat := none
  duration_minutes : Option Int := none
  end_date : Option Nat := none
  is_active : Option Bool := none
deriving Repr

/-- `RecurrencePatternService._validate_pattern_data`. -/
def validate_pattern_data (weekday : Int) (duration : Int) (start_date : Nat)
    (end_date : Option Nat) : Except SvcError Unit :=
  if ¬(0 ≤ weekday ∧ weekday ≤ 6) then .error .invalidWeekday
  else if duration ≤ 0 then .error .nonPositiveDuration
  else match end_date with
    | some ed => if ed ≤ start_date then .error .invalidEndDate else .ok ()
    | none => .ok ()

/-- `RecurrencePatternService.create_pattern` over a database of occurrences:
on success returns the created pattern, the count of generated occurrences and
the new database; on error nothing is created (atomic transaction). -/
def create_pattern (db : List SessionOccurrence) (pid : Nat) (title : String)
    (weekday : Int) (time_of_day : Nat) (start_date : Nat) (duration : Int)
    (description : String) (end_date : Option Nat) (gen : Bool)
    (months_ahead today : Nat) :
    Except SvcError (RecurrencePattern × Nat × List SessionOccurrence) :=
  match validate_pattern_data weekday duration start_date end_date with
  | .error e => .error e
  | .ok _ =>
    let p : RecurrencePattern :=
      { id := pid
        title := title
        description := description
        weekday := weekday
        time := time_of_day
        duration_minutes := duration
        start_date := start_date
        end_date := end_date
        is_active := true }
    if gen then
      let created := generate_for_pattern db p months_ahead today
      .ok (p, created.length, db ++ created)
    else .ok (p, 0, db)

/-- `_apply_field_updates` on the pattern inside `update_pattern`: each field
is written only when the DTO provides it. -/
def applyPatternUpdates (p : RecurrencePattern) (u : PatternUpdateData) :
    RecurrencePattern :=
  { p with
    title := u.title.getD p.title
    description := u.description.getD p.description
    time := u.time_of_day.getD p.time
    duration_minutes := u.duration_minutes.getD p.duration_minutes
    end_date := match u.end_date with | some d => some d | none => p.end_date
    is_active := u.is_active.getD p.is_active }

/-- The queryset filter of `_update_future_occurrences`: same pattern, a start
at or after now, not an exception, still scheduled. -/
def isFutureTemplateOcc (p : RecurrencePattern) (now : Nat) (o : SessionOccurrence) :
    Bool :=
  decide (o.recurrence_pattern = some p.id) && decide (now ≤ o.start_datetime) &&
    (!o.is_exception) && decide (o.status = OccStatus.scheduled)

/-- The `updates` dict of `_update_future_occurrences` applied to one row: only
title, description and duration_minutes are ever written there. -/
def applyOccPropagation (u : PatternUpdateData) (o : SessionOccurrence) :
    SessionOccurrence :=
  { o with
    title := u.title.getD o.title
    description := u.description.getD o.description
    duration_minutes := u.duration_minutes.getD o.duration_minutes }

/-- `RecurrencePatternService._update_future_occurrences`. -/
def update_future_occurrences (db : List SessionOccurrence) (p : RecurrencePattern)
    (u : PatternUpdateData) (now : Nat) : List SessionOccurrence :=
  db.map (fun o => if isFutureTemplateOcc p now o then applyOccPropagation u o else o)

/-- `RecurrencePatternService.update_pattern`: returns the updated pattern and
the new database state. -/
def update_pattern (db : List SessionOccurrence) (p : RecurrencePattern)
    (u : PatternUpdateData) (upd_future : Bool) (now : Nat) :
    Except SvcError (RecurrencePattern × List SessionOccurrence) :=
  if durationInvalid u.duration_minutes then .error .nonPositiveDuration
  else
    let p1 := applyPatternUpdates p u
    if upd_future then .ok (p1, update_future_occurrences db p1 u now)
    else .ok (p1, db)

inductive ApiError
| invalidDateOneTime
| wrongWeekday
| beforeStartDate
deriving DecidableEq, Repr

/-- The validated request of `manage_occurrence`: DELETE, PATCH with
`cancel=true`, or PATCH with a `new_datetime`. -/
inductive OccAction
| del
| patchCancel
| patchMove (dt : Nat)
deriving DecidableEq, Repr

/-- `SessionException.objects.update_or_create` keyed on
`(session, exception_date)`. -/
def upsertExc (l : List SessionExc) (d : Nat) (cancelled : Bool)
    (mdt : Option Nat) : List SessionExc :=
  if l.any (fun ex => decide (ex.exception_date = d)) then
    l.map (fun ex =>
      if ex.exception_date = d then
        { exception_date := d
          is_cancelled := cancelled
          modified_datetime := mdt }
      else ex)
  else l ++ [{ exception_date := d, is_cancelled := cancelled, modified_datetime := mdt }]

/-- `SessionViewSet.manage_occurrence` (views.py): the error response, if any,
and the session's resulting exception list (unchanged on error, since every
error returns before any write). -/
def manage_occurrence (sess : Session) (d : Nat) (act : OccAction) :
    Option ApiError × List SessionExc :=
  if sess.session_type = SessionType.one_time ∧ d ≠ dateOf sess.start_datetime then
    (some .invalidDateOneTime, sess.exceptions)
  else if sess.session_type = SessionType.recurring ∧
      sess.recurrence_day ≠ some (weekdayOfDate d) then
    (some .wrongWeekday, sess.exceptions)
  else if sess.session_type = SessionType.recurring ∧ d < dateOf sess.start_datetime then
    (some .beforeStartDate, sess.exceptions)
  else
    match act with
    | .del => (none, upsertExc sess.exceptions d true none)
    | .patchCancel => (none, upsertExc sess.exceptions d true none)
    | .patchMove dt => (none, upsertExc sess.exceptions d false (some dt))

/-! ### Concrete fixtures used in counterexamples and witnesses -/

/-- A standalone scheduled occurrence whose instant is 2 minutes past epoch. -/
def occAtEnd : SessionOccurrence :=
  { recurrence_pattern := none
    title := "boundary"
    description := ""
    start_datetime := 2
    duration_minutes := 60
    status := .scheduled
    is_exception := false }

/-- A standalone occurrence already marked completed. -/
def occDone : SessionOccurrence :=
  { recurrence_pattern := none
    title := "done"
    description := ""
    start_datetime := 100
    duration_minutes := 60
    status := .completed
    is_exception := false }

/-- A standalone scheduled occurrence. -/
def occSched : SessionOccurrence :=
  { recurrence_pattern := none
    title := "todo"
    description := ""
    start_datetime := 100
    duration_minutes := 60
    status := .scheduled
    is_exception := false }

/-- A Monday 10:00 weekly pattern starting at epoch day 0. -/
def patMon : RecurrencePattern :=
  { id := 1
    title := "weekly"
    description := ""
    weekday := 0
    time := 600
    duration_minutes := 60
    start_date := 0
    end_date := none
    is_active := true }

/-- A scheduled, non-exception occurrence of `patMon` one week in
(day 7, 10:00). -/
def occOfPatMon : SessionOccurrence :=
  { recurrence_pattern := some 1
    title := "weekly"
    description := ""
    start_datetime := 7 * 1440 + 600
    duration_minutes := 60
    status := .scheduled
    is_exception := false }

/-- A recurring Monday 10:00 session starting at epoch day 7 (a Monday). -/
def sessRec : Session :=
  { id := 1
    title := "weekly"
    description := ""
    session_type := .recurring
    start_datetime := 7 * 1440 + 600
    duration_minutes := 60
    recurrence_day := some 0
    exceptions := [] }

/-- The fixture session with its day-28 occurrence rescheduled to 11:00. -/
def sessRecMoved : Session :=
  { sessRec with
    exceptions := [{ exception_date := 28, is_cancelled := false, modified_datetime := some 40980 }] }

/-- A placeholder occurrence dict. -/
def odZero : OccurrenceData :=
  { session_id := 0
    occurrence_date := 0
    datetime := none
    title := ""
    description := ""
    duration_minutes := 0
    is_modified := false
    is_base_session := false }

/-- A one-time session on epoch day 11 at 14:00. -/
def sessOne : Session :=
  { id := 2
    title := "single"
    description := ""
    session_type := .one_time
    start_datetime := 11 * 1440 + 840
    duration_minutes := 90
    recurrence_day := none
    exceptions := [] }

/-- The resolver's emission for the first candidate of `sessRec`. -/
def odRec0 : OccurrenceData :=
  { session_id := 1
    occurrence_date := 7
    datetime := some (7 * 1440 + 600)
    title := "weekly"
    description := ""
    duration_minutes := 60
    is_modified := false
    is_base_session := false }

/-! ### Lemmas about the recurring resolver loop -/

theorem occurrencesLoop_mem (sess : Session) (e : Nat) (o : OccurrenceData) (cur : Nat) :
    o ∈ occurrencesLoop sess e cur ↔
      ∃ k, cur + minutesPerWeek * k ≤ e ∧
        emitRecurring sess (cur + minutesPerWeek * k) = some o := by
  by_cases h : cur ≤ e
  · rw [occurrencesLoop, dif_pos h]
    have ih := occurrencesLoop_mem sess e o (cur + minutesPerWeek)
    constructor
    · intro hm
      rcases List.mem_append.mp hm with hm1 | hm2
      · refine ⟨0, by simpa using h, ?_⟩
        revert hm1
        cases hemit : emitRecurring sess cur with
        | none => intro hm1; simp at hm1
        | some o0 =>
            intro hm1
            simp only [List.mem_singleton] at hm1
            simpa [hm1] using hemit
      · rcases ih.mp hm2 with ⟨k, hk, hek⟩
        refine ⟨k + 1, ?_, ?_⟩
        · have : cur + minutesPerWeek * (k + 1) = cur + minutesPerWeek + minutesPerWeek * k := by
            ring
          omega
        · have harg : cur + minutesPerWeek * (k + 1) = cur + minutesPerWeek + minutesPerWeek * k := by
            ring
          rw [harg]
          exact hek
    · rintro ⟨k, hk, hek⟩
      cases k with
      | zero =>
          apply List.mem_append.mpr
          left
          simp only [Nat.mul_zero, Nat.add_zero] at hek
          rw [hek]
          simp
      | succ k =>
          apply List.mem_append.mpr
          right
          apply ih.mpr
          refine ⟨k, ?_, ?_⟩
          · have : cur + minutesPerWeek * (k + 1) = cur + minutesPerWeek + minutesPerWeek * k := by
              ring
            omega
          · have harg : cur + minutesPerWeek + minutesPerWeek * k = cur + minutesPerWeek * (k + 1) := by
              ring
            rw [harg]
            exact hek
  · rw [occurrencesLoop, dif_neg h]
    simp only [List.not_mem_nil, false_iff]
    rintro ⟨k, hk, _⟩
    have : cur ≤ cur + minutesPerWeek * k := Nat.le_add_right _ _
    omega
termination_by e + 1 - cur
decreasing_by simp [minutesPerWeek]; omega

theorem advanceToStart_ge (s c : Nat) : s ≤ advanceToStart s c := by
  rw [advanceToStart]
  by_cases h : c < s
  · rw [if_pos h]
    exact advanceToStart_ge s (c + minutesPerWeek)
  · rw [if_neg h]
    omega
termination_by s - c
decreasing_by simp [minutesPerWeek]; omega

theorem advanceToStart_exists_mul (s c : Nat) :
    ∃ m, advanceToStart s c = c + minutesPerWeek * m := by
  rw [advanceToStart]
  by_cases h : c < s
  · rw [if_pos h]
    rcases advanceToStart_exists_mul s (c + minutesPerWeek) with ⟨m, hm⟩
    refine ⟨m + 1, ?_⟩
    rw [hm]
    ring
  · rw [if_neg h]
    exact ⟨0, by simp⟩
termination_by s - c
decreasing_by simp [minutesPerWeek]; omega

theorem advanceToStart_min (s c : Nat) (m : Nat) (hs : s ≤ c + minutesPerWeek * m) :
    advanceToStart s c ≤ c + minutesPerWeek * m := by
  rw [advanceToStart]
  by_cases h : c < s
  · rw [if_pos h]
    cases m with
    | zero =>
        simp only [Nat.mul_zero, Nat.add_zero] at hs
        omega
    | succ m =>
        have harg : c + minutesPerWeek * (m + 1) = c + minutesPerWeek + minutesPerWeek * m := by
          ring
        rw [harg] at hs ⊢
        exact advanceToStart_min s (c + minutesPerWeek) m hs
  · rw [if_neg h]
    omega
termination_by s - c
decreasing_by simp [minutesPerWeek]; omega

/-- The fast-forwarded starting value of the recurring loop is the least
weekly-aligned instant that is at or after the window start. -/
theorem initialCurrent_spec (sess : Session) (s : Nat) :
    (∃ k0, initialCurrent sess s = sess.start_datetime + minutesPerWeek * k0) ∧
    s ≤ initialCurrent sess s ∧
    (∀ k, s ≤ sess.start_datetime + minutesPerWeek * k →
      initialCurrent sess s ≤ sess.start_datetime + minutesPerWeek * k) := by
  unfold initialCurrent
  by_cases h : sess.start_datetime < s
  · rw [if_pos h]
    set c1 := sess.start_datetime +
      (s - sess.start_datetime) / minutesPerDay / 7 * minutesPerWeek with hc1
    have hdd : (s - sess.start_datetime) / minutesPerDay / 7 =
        (s - sess.start_datetime) / minutesPerWeek := by
      rw [Nat.div_div_eq_div_mul]
      rfl
    have hc1le : c1 ≤ s := by
      have := Nat.div_mul_le_self (s - sess.start_datetime) minutesPerWeek
      rw [hc1, hdd]
      omega
    refine ⟨?_, advanceToStart_ge s c1, ?_⟩
    · rcases advanceToStart_exists_mul s c1 with ⟨m, hm⟩
      refine ⟨(s - sess.start_datetime) / minutesPerDay / 7 + m, ?_⟩
      rw [hm, hc1]
      ring
    · intro k hk
      set q := (s - sess.start_datetime) / minutesPerDay / 7 with hq
      have hqk : q ≤ k := by
        by_contra hcon
        push_neg at hcon
        have h1 : minutesPerWeek * k < minutesPerWeek * q := by
          simp only [minutesPerWeek]
          omega
        have h2 : sess.start_datetime + minutesPerWeek * q ≤ s := by
          rw [hc1] at hc1le
          have : q * minutesPerWeek = minutesPerWeek * q := by ring
          omega
        omega
      have harg : sess.start_datetime + minutesPerWeek * k = c1 + minutesPerWeek * (k - q) := by
        rw [hc1]
        have : q * minutesPerWeek = minutesPerWeek * q := by ring
        have hsplit : minutesPerWeek * k = minutesPerWeek * q + minutesPerWeek * (k - q) := by
          rw [← Nat.mul_add]
          congr 1
          omega
        omega
      rw [harg] at hk ⊢
      exact advanceToStart_min s c1 (k - q) hk
  · rw [if_neg h]
    refine ⟨⟨0, by simp⟩, by omega, ?_⟩
    intro k _
    omega

/-- Membership characterization of the recurring branch of
`Session.get_occurrences`: the output holds exactly the emissions of the
weekly-aligned candidates whose template instant lies in the closed window. -/
theorem get_occurrences_recurring_mem (sess : Session)
    (hrec : sess.session_type = SessionType.recurring) (s e : Nat) (o : OccurrenceData) :
    o ∈ get_occurrences sess s e ↔
      ∃ k, s ≤ sess.start_datetime + minutesPerWeek * k ∧
        sess.start_datetime + minutesPerWeek * k ≤ e ∧
        emitRecurring sess (sess.start_datetime + minutesPerWeek * k) = some o := by
  rcases initialCurrent_spec sess s with ⟨⟨k0, hk0⟩, hge, hmin⟩
  unfold get_occurrences
  rw [hrec]
  rw [occurrencesLoop_mem]
  constructor
  · rintro ⟨k, hk, hek⟩
    refine ⟨k0 + k, ?_, ?_, ?_⟩
    · have : initialCurrent sess s ≤ initialCurrent sess s + minutesPerWeek * k :=
        Nat.le_add_right _ _
      have harg : sess.start_datetime + minutesPerWeek * (k0 + k) =
          initialCurrent sess s + minutesPerWeek * k := by
        rw [hk0]; ring
      omega
    · have harg : sess.start_datetime + minutesPerWeek * (k0 + k) =
          initialCurrent sess s + minutesPerWeek * k := by
        rw [hk0]; ring
      omega
    · have harg : sess.start_datetime + minutesPerWeek * (k0 + k) =
          initialCurrent sess s + minutesPerWeek * k := by
        rw [hk0]; ring
      rw [harg]
      exact hek
  · rintro ⟨k, hks, hke, hek⟩
    have hc : initialCurrent sess s ≤ sess.start_datetime + minutesPerWeek * k := hmin k hks
    have hkk0 : k0 ≤ k := by
      rw [hk0] at hc
      by_contra hcon
      push_neg at hcon
      have : minutesPerWeek * k < minutesPerWeek * k0 := by
        simp only [minutesPerWeek]
        omega
      omega
    refine ⟨k - k0, ?_, ?_⟩
    · have harg : initialCurrent sess s + minutesPerWeek * (k - k0) =
          sess.start_datetime + minutesPerWeek * k := by
        rw [hk0]
        have hsplit : minutesPerWeek * k = minutesPerWeek * k0 + minutesPerWeek * (k - k0) := by
          rw [← Nat.mul_add]
          congr 1
          omega
        omega
      omega
    · have harg : initialCurrent sess s + minutesPerWeek * (k - k0) =
          sess.start_datetime + minutesPerWeek * k := by
        rw [hk0]
        have hsplit : minutesPerWeek * k = minutesPerWeek * k0 + minutesPerWeek * (k - k0) := by
          rw [← Nat.mul_add]
          congr 1
          omega
        omega
      rw [harg]
      exact hek

/-- The date of the k-th weekly candidate advances by exactly 7k days. -/
theorem dateOf_candidate (start k : Nat) :
    dateOf (start + minutesPerWeek * k) = dateOf start + 7 * k := by
  unfold dateOf minutesPerWeek minutesPerDay
  have harg : start + 10080 * k = start + 1440 * (7 * k) := by ring
  rw [harg]
  exact Nat.add_mul_div_left start (7 * k) (by omega)

theorem candidate_date_inj (start k k' : Nat)
    (h : dateOf (start + minutesPerWeek * k) = dateOf (start + minutesPerWeek * k')) :
    k = k' := by
  rw [dateOf_candidate, dateOf_candidate] at h
  omega

theorem emitRecurring_date (sess : Session) (c : Nat) (o : OccurrenceData)
    (h : emitRecurring sess c = some o) : o.occurrence_date = dateOf c := by
  unfold emitRecurring at h
  split at h
  · split at h
    · exact absurd h (by simp)
    · cases h
      rfl
  · cases h
    rfl

theorem emitRecurring_of_cancelled (sess : Session) (c : Nat) (ex : SessionExc)
    (hf : findExc sess (dateOf c) = some ex) (hc : ex.is_cancelled = true) :
    emitRecurring sess c = none := by
  unfold emitRecurring
  rw [hf]
  simp [hc]

theorem emitRecurring_of_modified (sess : Session) (c : Nat) (ex : SessionExc)
    (hf : findExc sess (dateOf c) = some ex) (hc : ex.is_cancelled = false) :
    emitRecurring sess c = some
      { session_id := sess.id
        occurrence_date := dateOf c
        datetime := ex.modified_datetime
        title := sess.title
        description := sess.description
        duration_minutes := sess.duration_minutes
        is_modified := true
        is_base_session := false } := by
  unfold emitRecurring
  rw [hf]
  simp [hc]

theorem emitRecurring_of_none (sess : Session) (c : Nat)
    (hf : findExc sess (dateOf c) = none) :
    emitRecurring sess c = some
      { session_id := sess.id
        occurrence_date := dateOf c
        datetime := some c
        title := sess.title
        description := sess.description
        duration_minutes := sess.duration_minutes
        is_modified := false
        is_base_session := false } := by
  unfold emitRecurring
  rw [hf]

/-! ### Lemmas about listing, generation and exception upserts -/

theorem in_range_mem (occs : List SessionOccurrence) (s e : Nat) (o : SessionOccurrence) :
    o ∈ in_range occs s e ↔ o ∈ occs ∧ s ≤ o.start_datetime ∧ o.start_datetime ≤ e := by
  unfold in_range
  simp [List.mem_filter]

theorem dateOf_combine (d t : Nat) (ht : t < minutesPerDay) : dateOf (combine d t) = d := by
  unfold dateOf combine
  rw [Nat.mul_comm d minutesPerDay, Nat.mul_add_div (by unfold minutesPerDay; omega)]
  rw [Nat.div_eq_of_lt ht]
  omega

theorem calcDatesLoop_weekday (w : Int) (endD cur d : Nat)
    (hd : d ∈ calcDatesLoop w endD cur) : (weekdayOfDate d : Int) = w := by
  by_cases h : cur ≤ endD
  · rw [calcDatesLoop, dif_pos h] at hd
    rcases List.mem_append.mp hd with h1 | h2
    · by_cases hw : (weekdayOfDate cur : Int) = w
      · rw [if_pos hw] at h1
        simp only [List.mem_singleton] at h1
        rw [h1]
        exact hw
      · rw [if_neg hw] at h1
        simp at h1
    · exact calcDatesLoop_weekday w endD (cur + 1) d h2
  · rw [calcDatesLoop, dif_neg h] at hd
    simp at hd
termination_by endD + 1 - cur

theorem findExc_upsert (l : List SessionExc) (d : Nat) (b : Bool) (mdt : Option Nat) :
    List.find? (fun ex => decide (ex.exception_date = d)) (upsertExc l d b mdt) =
      some { exception_date := d, is_cancelled := b, modified_datetime := mdt } := by
  induction l with
  | nil =>
      unfold upsertExc
      simp
  | cons hd tl ih =>
      unfold upsertExc
      by_cases hhd : hd.exception_date = d
      · have hany : (hd :: tl).any (fun ex => decide (ex.exception_date = d)) = true := by
          simp [hhd]
        rw [if_pos hany]
        simp only [List.map_cons, if_pos hhd]
        rw [List.find?_cons_of_pos _ (by simp)]
      · by_cases htl : tl.any (fun ex => decide (ex.exception_date = d)) = true
        · have hany : (hd :: tl).any (fun ex => decide (ex.exception_date = d)) = true := by
            simp only [List.any_cons, htl, Bool.or_true]
          rw [if_pos hany]
          simp only [List.map_cons, if_neg hhd]
          rw [List.find?_cons_of_neg _ (by simpa using hhd)]
          unfold upsertExc at ih
          rw [if_pos htl] at ih
          exact ih
        · have hany : ¬((hd :: tl).any (fun ex => decide (ex.exception_date = d)) = true) := by
            simp only [List.any_cons, Bool.or_eq_true, not_or]
            exact ⟨by simpa using hhd, by simpa using htl⟩
          rw [if_neg hany]
          rw [List.cons_append, List.find?_cons_of_neg _ (by simpa using hhd)]
          unfold upsertExc at ih
          rw [if_neg (by simpa using htl)] at ih
          exact ih

theorem get_occurrences_of_one_time (sess : Session)
    (hone : sess.session_type = SessionType.one_time) (s e : Nat) :
    get_occurrences sess s e =
      if s ≤ sess.start_datetime ∧ sess.start_datetime ≤ e then
        match findExc sess (dateOf sess.start_datetime) with
        | some ex =>
            if ex.is_cancelled then []
            else
              [{ session_id := sess.id
                 occurrence_date := dateOf sess.start_datetime
                 datetime := ex.modified_datetime
                 title := sess.title
                 description := sess.description
                 duration_minutes := sess.duration_minutes
                 is_modified := !ex.is_cancelled
                 is_base_session := true }]
        | none =>
            [{ session_id := sess.id
               occurrence_date := dateOf sess.start_datetime
               datetime := some sess.start_datetime
               title := sess.title
               description := sess.description
               duration_minutes := sess.duration_minutes
               is_modified := false
               is_base_session := true }]
      else [] := by
  unfold get_occurrences
  rw [hone]

/-! ### Claim theorems -/

/-- Claim C1, counterexample: the claim asserts that the window is half-open,
so an instance at exactly `t = end` is excluded; but with the valid window
start 1 < end 2, the range listing returns the occurrence whose instant equals
the end bound. -/
theorem claim_c1_counterexample :
    1 < 2 ∧
    get_occurrences_in_range [occAtEnd] 1 2 none = Except.ok [occAtEnd] ∧
    ¬ occAtEnd.start_datetime < 2 := by
  refine ⟨by omega, by rfl, by decide⟩

/-- Claim C1, amended: for every window with start < end, the range listing
returns exactly the stored instances whose instant lies in the CLOSED window
(start ≤ t ≤ end; an instance at exactly t = end is included), and the
resolver emits exactly the weekly-aligned candidates whose template-derived
instant lies in the closed window, with the exception overlay deciding the
emitted payload (a one-time session contributes iff its instant is in the
closed window and not cancelled). -/
theorem claim_c1_amended (s e : Nat) (h : s < e) (occs : List SessionOccurrence)
    (o : SessionOccurrence) (sess : Session) (od : OccurrenceData) :
    (∃ l, get_occurrences_in_range occs s e none = Except.ok l ∧
       (o ∈ l ↔ o ∈ occs ∧ s ≤ o.start_datetime ∧ o.start_datetime ≤ e)) ∧
    (sess.session_type = SessionType.recurring →
      (od ∈ get_occurrences sess s e ↔
        ∃ k, s ≤ sess.start_datetime + minutesPerWeek * k ∧
          sess.start_datetime + minutesPerWeek * k ≤ e ∧
          emitRecurring sess (sess.start_datetime + minutesPerWeek * k) = some od)) ∧
    (sess.session_type = SessionType.one_time →
      (get_occurrences sess s e ≠ [] ↔
        (s ≤ sess.start_datetime ∧ sess.start_datetime ≤ e ∧
          ∀ ex, findExc sess (dateOf sess.start_datetime) = some ex →
            ex.is_cancelled = false))) := by
  refine ⟨?_, ?_, ?_⟩
  · refine ⟨in_range occs s e, ?_, in_range_mem occs s e o⟩
    unfold get_occurrences_in_range
    rw [if_neg (by omega)]
    rfl
  · intro hrec
    exact get_occurrences_recurring_mem sess hrec s e od
  · intro hone
    rw [get_occurrences_of_one_time sess hone]
    by_cases hw : s ≤ sess.start_datetime ∧ sess.start_datetime ≤ e
    · rw [if_pos hw]
      cases hf : findExc sess (dateOf sess.start_datetime) with
      | some ex =>
          by_cases hc : ex.is_cancelled
          · simp only [if_pos hc]
            constructor
            · intro hne
              exact absurd rfl hne
            · rintro ⟨_, _, hall⟩
              have := hall ex rfl
              rw [hc] at this
              exact absurd this (by simp)
          · simp only [if_neg hc]
            constructor
            · intro _
              refine ⟨hw.1, hw.2, ?_⟩
              intro ex' hex'
              cases hex'
              simpa using hc
            · intro _
              simp
      | none =>
          constructor
          · intro _
            refine ⟨hw.1, hw.2, ?_⟩
            intro ex' hex'
            exact absurd hex' (by simp)
          · intro _
            simp
    · rw [if_neg hw]
      constructor
      · intro hne
        exact absurd rfl hne
      · rintro ⟨h1, h2, _⟩
        exact absurd ⟨h1, h2⟩ hw

/-- Claim C1, amended, witness: the listing conjunct at the concrete boundary
window; the instance at the end bound is reported exactly by the closed-window
membership test. -/
theorem claim_c1_amended_witness :
    ∃ l, get_occurrences_in_range [occAtEnd] 1 2 none = Except.ok l ∧
      (occAtEnd ∈ l ↔ occAtEnd ∈ [occAtEnd] ∧ 1 ≤ occAtEnd.start_datetime ∧
        occAtEnd.start_datetime ≤ 2) :=
  (claim_c1_amended 1 2 (by omega) [occAtEnd] occAtEnd sessOne odZero).1

/-- Claim C3: for every candidate occurrence date in the resolution window, a
cancelled exception suppresses the instance, a modification exception makes
the resolved instance carry the modified instant flagged is_modified, and the
absence of an exception yields the template instant not flagged modified (for
both recurring and one-time sessions). -/
theorem claim_c3_exception_semantics (sess : Session) (s e : Nat) :
    (sess.session_type = SessionType.recurring →
      ∀ k, s ≤ sess.start_datetime + minutesPerWeek * k →
        sess.start_datetime + minutesPerWeek * k ≤ e →
        ((∀ ex, findExc sess (dateOf (sess.start_datetime + minutesPerWeek * k)) = some ex →
            ex.is_cancelled = true →
            ∀ o ∈ get_occurrences sess s e,
              o.occurrence_date ≠ dateOf (sess.start_datetime + minutesPerWeek * k)) ∧
         (∀ ex T, findExc sess (dateOf (sess.start_datetime + minutesPerWeek * k)) = some ex →
            ex.is_cancelled = false → ex.modified_datetime = some T →
            ((∃ o ∈ get_occurrences sess s e,
                o.occurrence_date = dateOf (sess.start_datetime + minutesPerWeek * k)) ∧
             (∀ o ∈ get_occurrences sess s e,
                o.occurrence_date = dateOf (sess.start_datetime + minutesPerWeek * k) →
                o.datetime = some T ∧ o.is_modified = true))) ∧
         (findExc sess (dateOf (sess.start_datetime + minutesPerWeek * k)) = none →
            ∃ o ∈ get_occurrences sess s e,
              o.occurrence_date = dateOf (sess.start_datetime + minutesPerWeek * k) ∧
              o.datetime = some (sess.start_datetime + minutesPerWeek * k) ∧
              o.is_modified = false))) ∧
    (sess.session_type = SessionType.one_time →
      s ≤ sess.start_datetime → sess.start_datetime ≤ e →
      ((∀ ex, findExc sess (dateOf sess.start_datetime) = some ex → ex.is_cancelled = true →
          get_occurrences sess s e = []) ∧
       (∀ ex T, findExc sess (dateOf sess.start_datetime) = some ex →
          ex.is_cancelled = false → ex.modified_datetime = some T →
          ∃ o ∈ get_occurrences sess s e,
            o.occurrence_date = dateOf sess.start_datetime ∧
            o.datetime = some T ∧ o.is_modified = true) ∧
       (findExc sess (dateOf sess.start_datetime) = none →
          ∃ o ∈ get_occurrences sess s e,
            o.occurrence_date = dateOf sess.start_datetime ∧
            o.datetime = some sess.start_datetime ∧ o.is_modified = false))) := by
  constructor
  · intro hrec k hks hke
    refine ⟨?_, ?_, ?_⟩
    · intro ex hf hc o ho hdo
      rcases (get_occurrences_recurring_mem sess hrec s e o).mp ho with ⟨k', _, _, hek'⟩
      have hdate := emitRecurring_date sess _ o hek'
      rw [hdo] at hdate
      have hkk := candidate_date_inj sess.start_datetime k k' hdate
      rw [← hkk] at hek'
      rw [emitRecurring_of_cancelled sess _ ex hf hc] at hek'
      exact absurd hek' (by simp)
    · intro ex T hf hc hm
      have hemit := emitRecurring_of_modified sess _ ex hf hc
      constructor
      · refine ⟨_, (get_occurrences_recurring_mem sess hrec s e _).mpr ⟨k, hks, hke, hemit⟩, rfl⟩
      · intro o ho hdo
        rcases (get_occurrences_recurring_mem sess hrec s e o).mp ho with ⟨k', _, _, hek'⟩
        have hdate := emitRecurring_date sess _ o hek'
        rw [hdo] at hdate
        have hkk := candidate_date_inj sess.start_datetime k k' hdate
        rw [← hkk] at hek'
        rw [hemit] at hek'
        cases hek'
        exact ⟨by simpa using hm, rfl⟩
    · intro hf
      have hemit := emitRecurring_of_none sess _ hf
      exact ⟨_, (get_occurrences_recurring_mem sess hrec s e _).mpr ⟨k, hks, hke, hemit⟩,
        rfl, rfl, rfl⟩
  · intro hone hs he
    rw [get_occurrences_of_one_time sess hone, if_pos ⟨hs, he⟩]
    refine ⟨?_, ?_, ?_⟩
    · intro ex hf hc
      rw [hf]
      simp [hc]
    · intro ex T hf hc hm
      rw [hf]
      simp only [hc]
      exact ⟨_, List.mem_singleton.mpr rfl, rfl, by simpa using hm, rfl⟩
    · intro hf
      rw [hf]
      exact ⟨_, List.mem_singleton.mpr rfl, rfl, rfl, rfl⟩

/-- Claim C3, witness: the week-3 candidate (day 28) of the fixture session
with the 11:00 reschedule exception is resolved on day 28. -/
theorem claim_c3_witness :
    ∃ o ∈ get_occurrences sessRecMoved 5760 47520, o.occurrence_date = 28 :=
  (((claim_c3_exception_semantics sessRecMoved 5760 47520).1 rfl 3 (by decide)
    (by decide)).2.1
      { exception_date := 28, is_cancelled := false, modified_datetime := some 40980 }
      40980 (by decide) rfl rfl).1

/-- Claim C4: occurrence generation is idempotent — a second run of
`generate_for_pattern` over the state produced by the first run creates no new
occurrence, because an occurrence is created iff none already exists for the
exact (pattern, start_datetime) pair. -/
theorem claim_c4_idempotent (db : List SessionOccurrence) (p : RecurrencePattern)
    (m today : Nat) :
    generate_for_pattern (db ++ generate_for_pattern db p m today) p m today = [] ∧
    (∀ d ∈ calculate_occurrence_dates p m today, p.is_active = true →
      (occFromPattern p d ∈ generate_for_pattern db p m today ↔
        ¬ ∃ o ∈ db, occKey p (combine d p.time) o = true)) := by
  constructor
  · by_cases ha : p.is_active
    · set created := generate_for_pattern db p m today with hcreated
      simp only [generate_for_pattern, if_pos ha]
      rw [List.map_eq_nil_iff, List.filter_eq_nil_iff]
      intro d hd hcontra
      simp only [should_create_occurrence, Bool.not_eq_true', List.any_append,
        Bool.or_eq_false_iff] at hcontra
      rcases hcontra with ⟨hdb, hcr⟩
      have hsc : should_create_occurrence db p d = true := by
        simp only [should_create_occurrence, Bool.not_eq_true']
        exact hdb
      have hmem : occFromPattern p d ∈ created := by
        rw [hcreated]
        simp only [generate_for_pattern, if_pos ha]
        exact List.mem_map.mpr ⟨d, List.mem_filter.mpr ⟨hd, hsc⟩, rfl⟩
      have : created.any (occKey p (combine d p.time)) = true :=
        List.any_eq_true.mpr ⟨occFromPattern p d, hmem, by simp [occKey, occFromPattern]⟩
      rw [this] at hcr
      exact absurd hcr (by simp)
    · simp [generate_for_pattern, ha]
  · intro d hd ha
    simp only [generate_for_pattern, if_pos ha]
    constructor
    · intro hmem
      rcases List.mem_map.mp hmem with ⟨d', hd', heq⟩
      rcases List.mem_filter.mp hd' with ⟨_, hsc⟩
      have hdd : d' = d := by
        have := congrArg SessionOccurrence.start_datetime heq
        simp only [occFromPattern, combine] at this
        have hpd : 0 < minutesPerDay := by unfold minutesPerDay; omega
        unfold minutesPerDay at this
        omega
      rw [hdd] at hsc
      simp only [should_create_occurrence, Bool.not_eq_true'] at hsc
      rintro ⟨o, ho, hkey⟩
      have : db.any (occKey p (combine d p.time)) = true := List.any_eq_true.mpr ⟨o, ho, hkey⟩
      rw [this] at hsc
      exact absurd hsc (by simp)
    · intro hnex
      have hsc : should_create_occurrence db p d = true := by
        simp only [should_create_occurrence, Bool.not_eq_true']
        by_contra hcon
        rw [Bool.not_eq_false] at hcon
        rcases List.any_eq_true.mp hcon with ⟨o, ho, hkey⟩
        exact hnex ⟨o, ho, hkey⟩
      exact List.mem_map.mpr ⟨d, List.mem_filter.mpr ⟨hd, hsc⟩, rfl⟩

/-- Claim C4, witness: with a zero-month horizon from day 0, the fixture
pattern's only candidate date is day 0, and creation happens iff no occurrence
exists for the exact key (here the database is empty). -/
theorem claim_c4_idempotent_witness :
    occFromPattern patMon 0 ∈ generate_for_pattern [] patMon 0 0 ↔
      ¬ ∃ o ∈ ([] : List SessionOccurrence), occKey patMon (combine 0 patMon.time) o = true := by
  refine (claim_c4_idempotent [] patMon 0 0).2 0 ?_ rfl
  have h1 : calcDatesLoop patMon.weekday 0 1 = [] := by
    rw [calcDatesLoop, dif_neg (by omega)]
  have h0 : calcDatesLoop patMon.weekday 0 0 = [0] := by
    rw [calcDatesLoop, dif_pos (by omega), h1]
    simp [patMon, weekdayOfDate]
  show 0 ∈ calculate_occurrence_dates patMon 0 0
  unfold calculate_occurrence_dates end_generation_date
  simp only [patMon, DAYS_PER_MONTH]
  rw [show (0 : Nat) + 30 * 0 = 0 by omega]
  rw [show calcDatesLoop 0 0 0 = [0] from h0]
  exact List.mem_singleton.mpr rfl

/-- Claim C5: every occurrence produced by generation falls on the pattern's
weekday, and for a valid recurring session (whose start datetime lies on its
recurrence day, as enforced by `Session.clean`), every resolved candidate date
falls on the recurrence day. -/
theorem claim_c5_weekday (db : List SessionOccurrence) (p : RecurrencePattern)
    (m today : Nat) (htime : p.time < minutesPerDay) (sess : Session) (s e : Nat)
    (hrec : sess.session_type = SessionType.recurring)
    (halign : sess.recurrence_day = some (weekdayOfDate (dateOf sess.start_datetime))) :
    (∀ o ∈ generate_for_pattern db p m today,
        (weekdayOfDate (dateOf o.start_datetime) : Int) = p.weekday) ∧
    (∀ od ∈ get_occurrences sess s e,
        some (weekdayOfDate od.occurrence_date) = sess.recurrence_day) := by
  constructor
  · intro o ho
    by_cases ha : p.is_active
    · simp only [generate_for_pattern, if_pos ha] at ho
      rcases List.mem_map.mp ho with ⟨d, hdmem, rfl⟩
      rcases List.mem_filter.mp hdmem with ⟨hdl, _⟩
      have hw := calcDatesLoop_weekday p.weekday _ _ d hdl
      show (weekdayOfDate (dateOf (occFromPattern p d).start_datetime) : Int) = p.weekday
      simp only [occFromPattern]
      rw [dateOf_combine d p.time htime]
      exact hw
    · simp [generate_for_pattern, ha] at ho
  · intro od hod
    rcases (get_occurrences_recurring_mem sess hrec s e od).mp hod with ⟨k, _, _, hek⟩
    have hdate := emitRecurring_date sess _ od hek
    rw [hdate, dateOf_candidate, halign]
    congr 1
    unfold weekdayOfDate
    omega

/-- Claim C5, witness: the first resolved instance of the fixture Monday
session falls on the recurrence day. -/
theorem claim_c5_weekday_witness :
    some (weekdayOfDate 7) = sessRec.recurrence_day := by
  have h := (claim_c5_weekday [] patMon 1 0 (by decide) sessRec 5760 47520 rfl (by decide)).2
  have hmem : odRec0 ∈ get_occurrences sessRec 5760 47520 :=
    (get_occurrences_recurring_mem sessRec rfl 5760 47520 odRec0).mpr
      ⟨0, by decide, by decide, by decide⟩
  exact h odRec0 hmem

/-- Claim C2, counterexample: updating the pattern's time_of_day from 10:00 to
09:00 with propagate=true leaves the future, non-exception, scheduled
materialized instance at its old instant — the propagation helper never writes
start_datetime, so instances are not shifted to the new time of day. -/
theorem claim_c2_counterexample :
    update_pattern [occOfPatMon] patMon { time_of_day := some 540 } true 0 =
      Except.ok ({ patMon with time := 540 }, [occOfPatMon]) ∧
    isFutureTemplateOcc { patMon with time := 540 } 0 occOfPatMon = true ∧
    occOfPatMon.start_datetime % minutesPerDay = 600 ∧ (600 : Nat) ≠ 540 := by
  refine ⟨by rfl, by decide, by decide, by decide⟩

/-- Claim C2, amended: propagation (propagate=true) rewrites title,
description and duration_minutes of every future, non-exception, scheduled
instance of the pattern to the provided template values and leaves all other
instances completely unchanged; it never changes any instance's
start_datetime, so a time_of_day change updates the pattern only. -/
theorem claim_c2_amended (db : List SessionOccurrence) (p : RecurrencePattern)
    (u : PatternUpdateData) (now : Nat)
    (hdur : durationInvalid u.duration_minutes = false) :
    ∃ p1 db', update_pattern db p u true now = Except.ok (p1, db') ∧
      p1.time = u.time_of_day.getD p.time ∧
      db'.length = db.length ∧
      ∀ i, ∀ hi : i < db.length, ∀ hi' : i < db'.length,
        ((isFutureTemplateOcc p1 now (db.get ⟨i, hi⟩) = true →
            (db'.get ⟨i, hi'⟩).start_datetime = (db.get ⟨i, hi⟩).start_datetime ∧
            (db'.get ⟨i, hi'⟩).status = (db.get ⟨i, hi⟩).status ∧
            (db'.get ⟨i, hi'⟩).is_exception = (db.get ⟨i, hi⟩).is_exception ∧
            (db'.get ⟨i, hi'⟩).recurrence_pattern = (db.get ⟨i, hi⟩).recurrence_pattern ∧
            (db'.get ⟨i, hi'⟩).title = u.title.getD (db.get ⟨i, hi⟩).title ∧
            (db'.get ⟨i, hi'⟩).description = u.description.getD (db.get ⟨i, hi⟩).description ∧
            (db'.get ⟨i, hi'⟩).duration_minutes =
              u.duration_minutes.getD (db.get ⟨i, hi⟩).duration_minutes) ∧
         (isFutureTemplateOcc p1 now (db.get ⟨i, hi⟩) = false →
            db'.get ⟨i, hi'⟩ = db.get ⟨i, hi⟩)) := by
  refine ⟨applyPatternUpdates p u,
    update_future_occurrences db (applyPatternUpdates p u) u now, ?_, rfl, ?_, ?_⟩
  · unfold update_pattern
    rw [if_neg (by simp [hdur]), if_pos rfl]
  · unfold update_future_occurrences
    exact List.length_map db _
  · intro i hi hi'
    have hget : (update_future_occurrences db (applyPatternUpdates p u) u now).get ⟨i, hi'⟩ =
        (fun o => if isFutureTemplateOcc (applyPatternUpdates p u) now o
                  then applyOccPropagation u o else o) (db.get ⟨i, hi⟩) := by
      unfold update_future_occurrences
      rw [List.get_eq_getElem, List.get_eq_getElem]
      exact List.getElem_map _
    constructor
    · intro hcond
      rw [hget]
      simp only [hcond, if_true]
      exact ⟨rfl, rfl, rfl, rfl, rfl, rfl, rfl⟩
    · intro hcond
      rw [hget]
      simp only [hcond]
      rfl

/-- Claim C2, amended, witness: concrete run at the fixture pattern with a
title update. -/
theorem claim_c2_amended_witness :
    ∃ p1 db', update_pattern [occOfPatMon] patMon { title := some "renamed" } true 0 =
      Except.ok (p1, db') ∧ db'.length = 1 := by
  obtain ⟨p1, db', h1, _, h3, _⟩ :=
    claim_c2_amended [occOfPatMon] patMon { title := some "renamed" } 0 rfl
  exact ⟨p1, db', h1, by simpa using h3⟩

/-- Claim C6, counterexample: a completed occurrence can still be cancelled —
cancel only guards against an already-cancelled status — so `completed` is not
terminal and `completed → cancelled` is a reachable transition, contradicting
the claimed state machine. -/
theorem claim_c6_counterexample :
    occDone.status = OccStatus.completed ∧
    cancel_occurrence occDone = Except.ok { occDone with status := OccStatus.cancelled } ∧
    occDone.status ≠ OccStatus.scheduled := by
  refine ⟨rfl, by rfl, by decide⟩

/-- Claim C6, amended: cancel fails with AlreadyCancelled iff the status is
already cancelled and otherwise sets it to cancelled; complete fails with
AlreadyCompleted iff completed and with CancelledCannotComplete iff cancelled,
and otherwise sets completed; hence the reachable transitions are
scheduled→cancelled, scheduled→completed and completed→cancelled: `cancelled`
is terminal but `completed` is not. -/
theorem claim_c6_amended (o : SessionOccurrence) :
    (o.status = OccStatus.cancelled →
      cancel_occurrence o = Except.error SvcError.alreadyCancelled) ∧
    (o.status ≠ OccStatus.cancelled →
      ∃ o', cancel_occurrence o = Except.ok o' ∧ o'.status = OccStatus.cancelled) ∧
    (o.status = OccStatus.completed →
      complete_occurrence o = Except.error SvcError.alreadyCompleted) ∧
    (o.status = OccStatus.cancelled →
      complete_occurrence o = Except.error SvcError.cancelledCannotComplete) ∧
    (o.status = OccStatus.scheduled →
      ∃ o', complete_occurrence o = Except.ok o' ∧ o'.status = OccStatus.completed) := by
  refine ⟨?_, ?_, ?_, ?_, ?_⟩
  · intro h
    simp [cancel_occurrence, h]
  · intro h
    refine ⟨{ o with status := OccStatus.cancelled, is_exception := if o.recurrence_pattern.isSome then true else o.is_exception }, ?_, rfl⟩
    unfold cancel_occurrence
    rw [if_neg h]
  · intro h
    simp [complete_occurrence, h]
  · intro h
    simp [complete_occurrence, h]
  · intro h
    refine ⟨{ o with status := OccStatus.completed }, ?_, rfl⟩
    unfold complete_occurrence
    rw [if_neg (by simp [h]), if_neg (by simp [h])]

/-- Claim C6, amended, witness: completing a concrete scheduled occurrence
succeeds and yields status completed. -/
theorem claim_c6_amended_witness :
    occSched.status = OccStatus.scheduled ∧
    (∃ o', complete_occurrence occSched = Except.ok o' ∧
      o'.status = OccStatus.completed) :=
  ⟨rfl, (claim_c6_amended occSched).2.2.2.2 rfl⟩

/-- Claim C7: the date-keyed mutation on a recurring session fails with
InvalidOccurrenceDate — recording no exception — whenever the date's weekday
differs from the recurrence weekday or the date precedes the session's start
date; a date on the correct weekday at or after the start date passes the
guard. -/
theorem claim_c7_guard (sess : Session)
    (hrec : sess.session_type = SessionType.recurring) (d : Nat) (act : OccAction) :
    (sess.recurrence_day ≠ some (weekdayOfDate d) →
       manage_occurrence sess d act = (some ApiError.wrongWeekday, sess.exceptions)) ∧
    (sess.recurrence_day = some (weekdayOfDate d) → d < dateOf sess.start_datetime →
       manage_occurrence sess d act = (some ApiError.beforeStartDate, sess.exceptions)) ∧
    (sess.recurrence_day = some (weekdayOfDate d) → dateOf sess.start_datetime ≤ d →
       (manage_occurrence sess d act).1 = none) := by
  refine ⟨?_, ?_, ?_⟩
  · intro hw
    unfold manage_occurrence
    rw [if_neg (by simp [hrec]), if_pos ⟨hrec, hw⟩]
  · intro hw hlt
    unfold manage_occurrence
    rw [if_neg (by simp [hrec]), if_neg (by simp [hw]), if_pos ⟨hrec, hlt⟩]
  · intro hw hge
    unfold manage_occurrence
    rw [if_neg (by simp [hrec]), if_neg (by simp [hw]),
      if_neg (by rintro ⟨_, hlt⟩; omega)]
    cases act <;> rfl

/-- Claim C7, witness: day 14 is a Monday at or after the start of the
fixture Monday session, so the guard passes. -/
theorem claim_c7_guard_witness :
    (manage_occurrence sessRec 14 OccAction.del).1 = none :=
  (claim_c7_guard sessRec rfl 14 OccAction.del).2.2 (by decide) (by decide)

theorem c8_error_cond_iff (weekday dur : Int) (sd : Nat) (ed : Option Nat) :
    (weekday < 0 ∨ 6 < weekday ∨ dur ≤ 0 ∨ ∃ dd, ed = some dd ∧ dd ≤ sd) ↔
      ¬ (0 ≤ weekday ∧ weekday ≤ 6 ∧ 0 < dur ∧ ∀ dd, ed = some dd → sd < dd) := by
  cases ed with
  | none =>
      constructor
      · rintro (h | h | h | ⟨dd, hdd, _⟩) ⟨h0, h6, hdur, _⟩
        · omega
        · omega
        · omega
        · cases hdd
      · intro h
        by_cases h0 : 0 ≤ weekday
        · by_cases h6 : weekday ≤ 6
          · by_cases hdur : 0 < dur
            · exact absurd ⟨h0, h6, hdur, fun dd hdd => by cases hdd⟩ h
            · right; right; left; omega
          · right; left; omega
        · left; omega
  | some dd =>
      simp only [Option.some.injEq]
      constructor
      · rintro (h | h | h | ⟨dd', hdd', hle⟩) ⟨h0, h6, hdur, hlt⟩
        · omega
        · omega
        · omega
        · have := hlt dd' (by rw [hdd'])
          omega
      · intro h
        by_cases h0 : 0 ≤ weekday
        · by_cases h6 : weekday ≤ 6
          · by_cases hdur : 0 < dur
            · right; right; right
              refine ⟨dd, rfl, ?_⟩
              by_contra hcon
              exact h ⟨h0, h6, hdur, fun dd' hdd' => by cases hdd'; omega⟩
            · right; right; left; omega
          · right; left; omega
        · left; omega

theorem validate_pattern_data_ok_iff (weekday dur : Int) (sd : Nat) (ed : Option Nat) :
    validate_pattern_data weekday dur sd ed = Except.ok () ↔
      (0 ≤ weekday ∧ weekday ≤ 6 ∧ 0 < dur ∧ ∀ dd, ed = some dd → sd < dd) := by
  unfold validate_pattern_data
  by_cases hw : 0 ≤ weekday ∧ weekday ≤ 6
  · rw [if_neg (by simpa using hw)]
    by_cases hd : dur ≤ 0
    · rw [if_pos hd]
      constructor
      · intro h
        exact absurd h (by simp)
      · rintro ⟨_, _, hdur, _⟩
        omega
    · rw [if_neg hd]
      cases ed with
      | none =>
          constructor
          · intro _
            exact ⟨hw.1, hw.2, by omega, fun dd hdd => by cases hdd⟩
          · intro _
            rfl
      | some dd =>
          by_cases hde : dd ≤ sd
          · constructor
            · intro h
              have h' : (if dd ≤ sd then Except.error SvcError.invalidEndDate
                  else Except.ok ()) = Except.ok () := h
              rw [if_pos hde] at h'
              exact absurd h' (by simp)
            · rintro ⟨_, _, _, hlt⟩
              have := hlt dd rfl
              omega
          · constructor
            · intro _
              exact ⟨hw.1, hw.2, by omega, fun dd' hdd' => by cases hdd'; omega⟩
            · intro _
              show (if dd ≤ sd then Except.error SvcError.invalidEndDate
                  else Except.ok ()) = Except.ok ()
              rw [if_neg hde]
  · rw [if_pos (by simpa using hw)]
    constructor
    · intro h
      exact absurd h (by simp)
    · rintro ⟨h0, h6, _, _⟩
      exact absurd (And.intro h0 h6) hw

/-- Claim C8: pattern creation fails with a validation error exactly when the
weekday lies outside [0,6], the duration is non-positive, or a supplied
end_date is at or before start_date; on failure nothing is created (the error
result carries no new state), and on success the created pattern satisfies the
stated invariants. -/
theorem claim_c8_validation (db : List SessionOccurrence) (pid : Nat) (t : String)
    (weekday : Int) (tod sd : Nat) (dur : Int) (descr : String) (ed : Option Nat)
    (gen : Bool) (m today : Nat) :
    ((weekday < 0 ∨ 6 < weekday ∨ dur ≤ 0 ∨ ∃ dd, ed = some dd ∧ dd ≤ sd) ↔
      ∃ err, create_pattern db pid t weekday tod sd dur descr ed gen m today =
        Except.error err) ∧
    (∀ p cnt db', create_pattern db pid t weekday tod sd dur descr ed gen m today =
        Except.ok (p, cnt, db') →
      0 ≤ p.weekday ∧ p.weekday ≤ 6 ∧ 0 < p.duration_minutes ∧
        (∀ dd, p.end_date = some dd → p.start_date < dd) ∧ p.is_active = true) := by
  constructor
  · rw [c8_error_cond_iff]
    cases hv : validate_pattern_data weekday dur sd ed with
    | error err =>
        constructor
        · intro _
          refine ⟨err, ?_⟩
          unfold create_pattern
          rw [hv]
        · intro _ hok
          rw [(validate_pattern_data_ok_iff weekday dur sd ed).mpr hok] at hv
          exact absurd hv (by simp)
    | ok u =>
        cases u
        have hok := (validate_pattern_data_ok_iff weekday dur sd ed).mp hv
        constructor
        · intro hno
          exact absurd hok hno
        · rintro ⟨err, herr⟩
          unfold create_pattern at herr
          rw [hv] at herr
          by_cases hg : gen
          · rw [if_pos hg] at herr
            exact absurd herr (by simp)
          · rw [if_neg hg] at herr
            exact absurd herr (by simp)
  · intro p cnt db' hokk
    unfold create_pattern at hokk
    cases hv : validate_pattern_data weekday dur sd ed with
    | error err =>
        rw [hv] at hokk
        exact absurd hokk (by simp)
    | ok u =>
        cases u
        rw [hv] at hokk
        have hok := (validate_pattern_data_ok_iff weekday dur sd ed).mp hv
        have hp : (⟨pid, t, descr, weekday, tod, dur, sd, ed, true⟩ : RecurrencePattern) = p := by
          by_cases hg : gen
          · rw [if_pos hg] at hokk
            simp only [Except.ok.injEq, Prod.mk.injEq] at hokk
            exact hokk.1
          · rw [if_neg hg] at hokk
            simp only [Except.ok.injEq, Prod.mk.injEq] at hokk
            exact hokk.1
        rw [← hp]
        exact ⟨hok.1, hok.2.1, hok.2.2.1, fun dd hdd => hok.2.2.2 dd hdd, rfl⟩

/-- Claim C8, witness: a weekday of 7 is rejected. -/
theorem claim_c8_validation_witness :
    ∃ err, create_pattern [] 1 "w" 7 600 0 60 "" none false 3 0 =
      Except.error err :=
  (claim_c8_validation [] 1 "w" 7 600 0 60 "" none false 3 0).1.mp
    (Or.inr (Or.inl (by omega)))

/-- Claim C9: a standalone occurrence (no recurrence pattern) never becomes an
exception: create_one_time creates it non-exception, and update, cancel and
complete keep is_exception false whenever the occurrence has no pattern. -/
theorem claim_c9_standalone (t descr : String) (sdt : Nat) (dur : Int)
    (o : SessionOccurrence) (u : OccurrenceUpdateData)
    (hstand : o.recurrence_pattern = none) (hni : o.is_exception = false) :
    (∀ o', create_one_time t sdt dur descr = Except.ok o' →
        o'.recurrence_pattern = none ∧ o'.is_exception = false) ∧
    (∀ o', update_occurrence o u = Except.ok o' →
        o'.recurrence_pattern = none ∧ o'.is_exception = false) ∧
    (∀ o', cancel_occurrence o = Except.ok o' →
        o'.recurrence_pattern = none ∧ o'.is_exception = false) ∧
    (∀ o', complete_occurrence o = Except.ok o' →
        o'.recurrence_pattern = none ∧ o'.is_exception = false) := by
  refine ⟨?_, ?_, ?_, ?_⟩
  · intro o' h
    unfold create_one_time at h
    by_cases hd : dur ≤ 0
    · rw [if_pos hd] at h
      exact absurd h (by simp)
    · rw [if_neg hd] at h
      cases h
      exact ⟨rfl, rfl⟩
  · intro o' h
    unfold update_occurrence at h
    by_cases hd : durationInvalid u.duration_minutes
    · rw [if_pos hd] at h
      exact absurd h (by simp)
    · rw [if_neg hd] at h
      cases h
      unfold applyDatetimeUpdate
      cases u.start_datetime with
      | none => exact ⟨hstand, hni⟩
      | some v =>
          refine ⟨hstand, ?_⟩
          show (if o.recurrence_pattern.isSome then true else o.is_exception) = false
          rw [hstand, hni]
          rfl
  · intro o' h
    unfold cancel_occurrence at h
    by_cases hc : o.status = OccStatus.cancelled
    · rw [if_pos hc] at h
      exact absurd h (by simp)
    · rw [if_neg hc] at h
      cases h
      refine ⟨hstand, ?_⟩
      show (if o.recurrence_pattern.isSome then true else o.is_exception) = false
      rw [hstand, hni]
      rfl
  · intro o' h
    unfold complete_occurrence at h
    by_cases hc : o.status = OccStatus.completed
    · rw [if_pos hc] at h
      exact absurd h (by simp)
    · rw [if_neg hc] at h
      by_cases hc2 : o.status = OccStatus.cancelled
      · rw [if_pos hc2] at h
        exact absurd h (by simp)
      · rw [if_neg hc2] at h
        cases h
        exact ⟨hstand, hni⟩

/-- Claim C9, witness: cancelling the concrete standalone scheduled fixture
keeps it non-exception. -/
theorem claim_c9_standalone_witness :
    ({ occSched with status := OccStatus.cancelled }).recurrence_pattern = none ∧
    ({ occSched with status := OccStatus.cancelled }).is_exception = false :=
  (claim_c9_standalone "x" "" 0 60 occSched {} rfl rfl).2.2.1
    { occSched with status := OccStatus.cancelled } (by rfl)

theorem get_occurrences_one_time_of_cancelled (sess : Session)
    (hone : sess.session_type = SessionType.one_time) (ex : SessionExc)
    (hf : findExc sess (dateOf sess.start_datetime) = some ex)
    (hc : ex.is_cancelled = true) (s e : Nat) :
    get_occurrences sess s e = [] := by
  rw [get_occurrences_of_one_time sess hone]
  by_cases hw : s ≤ sess.start_datetime ∧ sess.start_datetime ≤ e
  · rw [if_pos hw, hf]
    simp [hc]
  · rw [if_neg hw]

/-- Claim C10: for a one-time session the date-keyed mutation is accepted
precisely when the date equals the session's own start date (any other date
is rejected with no exception written), and a cancellation recorded this way
removes the single instance from every later resolution window. -/
theorem claim_c10_one_time (sess : Session)
    (hone : sess.session_type = SessionType.one_time) (d : Nat) (act : OccAction) :
    (d ≠ dateOf sess.start_datetime →
      manage_occurrence sess d act = (some ApiError.invalidDateOneTime, sess.exceptions)) ∧
    ((manage_occurrence sess d act).1 = none ↔ d = dateOf sess.start_datetime) ∧
    (∀ s e, get_occurrences
        { sess with exceptions :=
            (manage_occurrence sess (dateOf sess.start_datetime) OccAction.del).2 }
        s e = []) := by
  have hrej : d ≠ dateOf sess.start_datetime →
      manage_occurrence sess d act = (some ApiError.invalidDateOneTime, sess.exceptions) := by
    intro hne
    unfold manage_occurrence
    rw [if_pos ⟨hone, hne⟩]
  have hacc : d = dateOf sess.start_datetime → (manage_occurrence sess d act).1 = none := by
    intro hde
    unfold manage_occurrence
    rw [if_neg (by simp [hde]), if_neg (by simp [hone]), if_neg (by simp [hone])]
    cases act <;> rfl
  refine ⟨hrej, ?_, ?_⟩
  · constructor
    · intro hn
      by_contra hne
      rw [hrej hne] at hn
      exact absurd hn (by simp)
    · exact hacc
  · intro s e
    have hexc : (manage_occurrence sess (dateOf sess.start_datetime) OccAction.del).2 =
        upsertExc sess.exceptions (dateOf sess.start_datetime) true none := by
      unfold manage_occurrence
      rw [if_neg (by simp), if_neg (by simp [hone]), if_neg (by simp [hone])]
    exact get_occurrences_one_time_of_cancelled
      { sess with exceptions :=
          (manage_occurrence sess (dateOf sess.start_datetime) OccAction.del).2 }
      hone { exception_date := dateOf sess.start_datetime, is_cancelled := true, modified_datetime := none }
      (by
        show List.find? _
          ((manage_occurrence sess (dateOf sess.start_datetime) OccAction.del).2) = _
        rw [hexc]
        exact findExc_upsert sess.exceptions (dateOf sess.start_datetime) true none)
      rfl s e

/-- Claim C10, witness: on the fixture one-time session, a wrong date is
rejected with the exception list untouched. -/
theorem claim_c10_one_time_witness :
    manage_occurrence sessOne 3 OccAction.del =
      (some ApiError.invalidDateOneTime, sessOne.exceptions) :=
  (claim_c10_one_time sessOne rfl 3 OccAction.del).1 (by decide)

end EventCalendar
